import Mathlib

/-!
Shallow embedding of `src/tiktok_comments_termux.py` (a TikTok comment
downloader) and proofs about the claims of its specification.

Modelling conventions:
* Python dictionaries keyed by strings are association lists
  `List (String × String)` in insertion order; insertion of an existing key
  overwrites the value in place (`dinsert`), as Python `d[k] = v` does.
* A JSON comment object is the record `CommentItem`; absent fields are
  `none`.  Python `str(x)` applied to an optional id is `pyStr`
  (`str(None) = "None"`).  Python `x or y` on strings/ints treats `None`,
  `""` and `0` as falsy (`pyOrStr`, `pyOrInt0`).
* The network is a deterministic oracle: the n-th GET to the comment-list
  endpoint (with the cursor string the code would send) yields
  `server n cursor : HttpResponse`; `body = none` models a response whose
  `r.json()` raises.  The reply endpoint is keyed additionally by the
  parent comment id.
* The unbounded Python `while True` loops are given a fuel parameter; the
  returned Bool is `true` when the loop exited through one of its `break`
  statements (i.e. the Python run terminates) and `false` on fuel
  exhaustion.
* `FetchState` carries, besides the Python-visible state
  (`all_comments`, `seen_ids`, `total_received`, cursor), ghost trace
  fields used only by specifications: the number of page requests issued,
  the value of `total_received` at each request, the raw length of each
  processed page, the parent ids for which `fetch_replies` was invoked,
  and one `MatInfo` entry per materialized top-level comment.
* File writing in append mode is string concatenation onto the prior
  contents; the timestamp `datetime.now()` is a parameter.
-/

namespace TiktokComments

/-- Python `str` applied to an optional string id: `str(None) = "None"`. -/
def pyStr : Option String → String
  | none => "None"
  | some s => s

/-- Python `a or b` for an optional string `a` (both `None` and `""` are falsy). -/
def pyOrStr (a : Option String) (b : String) : String :=
  match a with
  | some s => if s = "" then b else s
  | none => b

/-- Python `a or 0` for an optional integer `a` (`None` and `0` both give `0`). -/
def pyOrInt0 (a : Option Int) : Int :=
  a.getD 0

/-- Python dict assignment `d[k] = v`: overwrite in place if the key exists,
else append the pair, preserving insertion order. -/
def dinsert (d : List (String × String)) (k v : String) : List (String × String) :=
  if d.any (fun p => p.1 == k) then
    d.map (fun p => if p.1 == k then (k, v) else p)
  else d ++ [(k, v)]

/-- Insert a list of pairs one by one into a dict (Python dict construction). -/
def dinsertAll (d : List (String × String)) (kvs : List (String × String)) :
    List (String × String) :=
  kvs.foldl (fun d p => dinsert d p.1 p.2) d

/-- Python `s.split(sep)` for a one-character separator, on character lists:
every occurrence of the separator starts a new (possibly empty) segment. -/
def splitChar (sep : Char) : List Char → List (List Char)
  | [] => [[]]
  | c :: rest =>
    if c = sep then [] :: splitChar sep rest
    else
      match splitChar sep rest with
      | [] => [[c]]
      | h :: t => (c :: h) :: t

/-- `sep.join(segments)` on character lists. -/
def joinChar (sep : Char) : List (List Char) → List Char
  | [] => []
  | [l] => l
  | l :: rest => l ++ sep :: joinChar sep rest

/-- Python `s.split(sep)` for a one-character separator. -/
def pySplitChar (sep : Char) (s : String) : List String :=
  (splitChar sep s.data).map (fun l => ⟨l⟩)

/-- Python `s.strip()`: drop leading and trailing whitespace. -/
def pyStrip (s : String) : String :=
  ⟨((s.data.dropWhile Char.isWhitespace).reverse.dropWhile Char.isWhitespace).reverse⟩

/-- Whether the second list starts with the first. -/
def charsStartWith : List Char → List Char → Bool
  | [], _ => true
  | _ :: _, [] => false
  | p :: ps, c :: cs => (p = c) && charsStartWith ps cs

/-- Python `part.split("=", 1)`: split at the first `=` only. -/
def splitFirstEq (part : String) : String × String :=
  match splitChar '=' part.data with
  | [] => ("", "")
  | n :: rest => (⟨n⟩, ⟨joinChar '=' rest⟩)

/-- `_parse_cookie_header`: split the header on `";"`, skip blank segments and
segments without `=`, split each remaining segment at the first `=`, strip
name and value, and insert into the jar. -/
def parse_cookie_header (header : String) : List (String × String) :=
  (pySplitChar ';' header).foldl
    (fun jar part =>
      if pyStrip part = "" then jar
      else if !(part.data.contains '=') then jar
      else
        let p := splitFirstEq part
        dinsert jar (pyStrip p.1) (pyStrip p.2))
    []

/-- The parsed content of a `cookies.json` file: a JSON object of
name-to-value, a JSON array of `{name, value}` objects (either field possibly
absent), some other JSON value, or text that fails to parse. -/
inductive JsonCookieFile
  | malformed
  | obj (entries : List (String × String))
  | arr (items : List (Option String × Option String))
  | other
deriving DecidableEq

/-- `_load_cookies_from_json`: `none` when the file is missing (`open` raises)
or the content is malformed or of an unexpected shape; a dict built from the
object entries or from the array items having both `name` and `value`. -/
def load_cookies_from_json : Option JsonCookieFile → Option (List (String × String))
  | none => none
  | some .malformed => none
  | some (.obj entries) => some (dinsertAll [] entries)
  | some (.arr items) =>
      some (items.foldl
        (fun jar it =>
          match it.1, it.2 with
          | some n, some v => dinsert jar n v
          | _, _ => jar)
        [])
  | some .other => none

/-- The credential files the loader may consult, in the two candidate
directories (current directory and `.secret/`). -/
inductive CredPath
  | cookiesJson | secretCookiesJson | cookiesTxt | secretCookiesTxt
  | curlTxt | secretCurlTxt | uaTxt | secretUaTxt
deriving DecidableEq

/-- The credential file system visible to `load_cookies_and_ua`.  `cookies.txt`
and `ua.txt` contents are raw strings (`none` = file absent).  For `curl.txt`
the pair is the result of `_extract_from_curl_txt` (regex extraction of the
Cookie header dict and the User-Agent; `(none, none)` when the file is missing
or nothing matches) — the regex itself is not needed by any claim. -/
structure CredFiles where
  cookies_json : Option JsonCookieFile
  secret_cookies_json : Option JsonCookieFile
  cookies_txt : Option String
  secret_cookies_txt : Option String
  curl_extract : Option (List (String × String)) × Option String
  secret_curl_extract : Option (List (String × String)) × Option String
  ua_txt : Option String
  secret_ua_txt : Option String

/-- The `for p in candidates_json: ... if jar: break / else: jar = None` loop:
first JSON file yielding a non-empty jar wins; attempted files are recorded. -/
def firstGoodJar : List (CredPath × Option JsonCookieFile) →
    Option (List (String × String)) × List CredPath
  | [] => (none, [])
  | (p, f) :: rest =>
    match load_cookies_from_json f with
    | some jar =>
        if jar.isEmpty then
          let r := firstGoodJar rest
          (r.1, p :: r.2)
        else (some jar, [p])
    | none =>
        let r := firstGoodJar rest
        (r.1, p :: r.2)

/-- Reading one `cookies.txt`-style file: strip, drop a leading
case-insensitive `Cookie:` label (`raw.split(":", 1)[1].strip()`), parse as a
cookie header. -/
def cookieTxtJar (content : String) : List (String × String) :=
  let raw := pyStrip content
  let raw :=
    if charsStartWith "cookie:".data (raw.data.map Char.toLower) then
      match splitChar ':' raw.data with
      | [] => raw
      | _ :: rest => pyStrip ⟨joinChar ':' rest⟩
    else raw
  parse_cookie_header raw

/-- The `cookies.txt` candidate loop.  Note that there is no `for`-`else`
here: after the loop the jar can be the (possibly empty) parse of the last
existing file, which is distinct from never having been assigned.  Files are
recorded only when they exist (and are hence opened). -/
def rawJarStep (jar0 : Option (List (String × String))) :
    List (CredPath × Option String) →
    Option (List (String × String)) × List CredPath
  | [] => (jar0, [])
  | (p, content) :: rest =>
    match content with
    | none => rawJarStep jar0 rest
    | some s =>
        let jar := cookieTxtJar s
        if jar.isEmpty then
          let r := rawJarStep (some jar) rest
          (r.1, p :: r.2)
        else (some jar, [p])

/-- The `curl.txt` candidate loop: the jar is replaced only by a non-empty
extracted cookie dict; the extracted UA of the last attempted file is kept
(the loop variable is overwritten on every iteration). -/
def curlStep (jar0 : Option (List (String × String))) (ua0 : Option String) :
    List (CredPath × (Option (List (String × String)) × Option String)) →
    Option (List (String × String)) × Option String × List CredPath
  | [] => (jar0, ua0, [])
  | (p, e) :: rest =>
    match e.1 with
    | some c =>
        if c.isEmpty then
          let r := curlStep jar0 e.2 rest
          (r.1, r.2.1, p :: r.2.2)
        else (some c, e.2, [p])
    | none =>
        let r := curlStep jar0 e.2 rest
        (r.1, r.2.1, p :: r.2.2)

/-- The `ua.txt` candidate loop: the first file whose stripped content is
non-empty wins; an existing file with blank content still assigns (the
variable becomes `""`, not `None`). -/
def uaFileStep (ua0 : Option String) :
    List (CredPath × Option String) → Option String × List CredPath
  | [] => (ua0, [])
  | (p, content) :: rest =>
    match content with
    | none => uaFileStep ua0 rest
    | some s =>
        let u := pyStrip s
        if u = "" then
          let r := uaFileStep (some u) rest
          (r.1, p :: r.2)
        else (some u, [p])

/-- The hard-coded fallback User-Agent. -/
def fallbackUA : String :=
  "Mozilla/5.0 (Linux; Android 13; Pixel 5) AppleWebKit/537.36 (KHTML, like Gecko) Chrome/118.0.0.0 Mobile Safari/537.36"

/-- `load_cookies_and_ua`: returns the jar and UA (`none` models the
`RuntimeError` raised when no source yields cookies), together with the list
of credential files actually read, in order. -/
def load_cookies_and_ua (fs : CredFiles) :
    Option (List (String × String) × String) × List CredPath :=
  let s1 := firstGoodJar
    [(.cookiesJson, fs.cookies_json), (.secretCookiesJson, fs.secret_cookies_json)]
  let jar1 := s1.1
  let s2 :=
    match jar1 with
    | none =>
        rawJarStep none
          [(.cookiesTxt, fs.cookies_txt), (.secretCookiesTxt, fs.secret_cookies_txt)]
    | some j => (some j, [])
  let jar2 := s2.1
  let needCurl := match jar2 with | none => true | some j => j.isEmpty
  let s3 :=
    if needCurl then
      curlStep jar2 none
        [(.curlTxt, fs.curl_extract), (.secretCurlTxt, fs.secret_curl_extract)]
    else (jar2, none, [])
  let jar3 := s3.1
  let uaCurl := s3.2.1
  let trace := s1.2 ++ s2.2 ++ s3.2.2
  match jar3 with
  | none => (none, trace)
  | some j =>
    if j.isEmpty then (none, trace)
    else
      let s4 := uaFileStep none [(.uaTxt, fs.ua_txt), (.secretUaTxt, fs.secret_ua_txt)]
      let ua1 :=
        match s4.1, uaCurl with
        | none, some c => if c = "" then none else some c
        | x, _ => x
      let ua2 := match ua1 with | none => fallbackUA | some u => u
      (some (j, ua2), trace ++ s4.2)

/-- A raw comment object as the server returns it.  The nested `user` object
is flattened into its two consumed fields; `reply_comment` is the list of
inline reply objects, of which the source only takes the length. -/
structure CommentItem where
  cid : Option String
  text : Option String
  user_nickname : Option String
  user_unique_id : Option String
  digg_count : Option Int
  reply_comment_total : Option Int
  reply_comment : Option (List Unit)
deriving DecidableEq

/-- A materialized comment or reply record (`comment_obj` / the reply dicts).
Top-level records have `parent_cid = none`; replies carry their parent id. -/
structure CommentRecord where
  cid : String
  text : Option String
  author_nickname : Option String
  author_unique_id : Option String
  likes : Option Int
  reply_count : Option Int
  parent_cid : Option String
deriving DecidableEq

/-- The parsed JSON body of a list endpoint response: the `comments` field
(`none` when absent or null), the truthiness of `has_more`, and the next
cursor `data.get("cursor", 0)`. -/
structure PageData where
  comments : Option (List CommentItem)
  has_more : Bool
  cursor : Nat
deriving DecidableEq

/-- An HTTP response of the comment-list endpoint: a status code and the
parsed body (`none` when `r.json()` raises). -/
structure HttpResponse where
  status : Nat
  body : Option PageData

/-- `len(c.get("reply_comment") or [])`. -/
def inlineCount (c : CommentItem) : Nat :=
  (c.reply_comment.getD []).length

/-- The guard `total_replies > inline_count` that triggers a reply fetch. -/
def triggersReplyFetch (c : CommentItem) : Bool :=
  decide ((inlineCount c : Int) < pyOrInt0 c.reply_comment_total)

/-- The reply record built in the `fetch_replies` inner loop. -/
def replyRecord (parent_cid : String) (rpl : CommentItem) : CommentRecord :=
  { cid := pyStr rpl.cid
    text := rpl.text
    author_nickname := rpl.user_nickname
    author_unique_id := rpl.user_unique_id
    likes := rpl.digg_count
    reply_count := rpl.reply_comment_total
    parent_cid := some parent_cid }

/-- The state of one `fetch_replies` call: accumulated replies, the dedup
set (a list used only through membership), the cursor to send next, and the
number of requests issued so far (also the index of the next request). -/
structure ReplyState where
  replies : List CommentRecord
  seen_ids : List String
  cursor : String
  requests : Nat
deriving DecidableEq

/-- The body of the `for rpl in items` loop of `fetch_replies`. -/
def replyStep (parent_cid : String) (st : ReplyState) (rpl : CommentItem) : ReplyState :=
  let rid := pyStr rpl.cid
  if st.seen_ids.contains rid then st
  else
    { st with
        seen_ids := rid :: st.seen_ids
        replies := st.replies ++ [replyRecord parent_cid rpl] }

/-- One iteration of the `fetch_replies` `while True` loop: `.inl` is a
`break` with the final state, `.inr` continues with the next state. -/
def repliesIter (server : Nat → String → Option PageData) (parent_cid : String)
    (st : ReplyState) : Sum ReplyState ReplyState :=
  let resp := server st.requests st.cursor
  let st := { st with requests := st.requests + 1 }
  match resp with
  | none => .inl st
  | some pd =>
    let items := pd.comments.getD []
    if items.isEmpty then .inl st
    else
      let st := items.foldl (replyStep parent_cid) st
      if pd.has_more = false then .inl st
      else .inr { st with cursor := toString pd.cursor }

/-- The `fetch_replies` loop, with fuel.  The Bool is `true` when the loop
exited through a `break` (the Python call returns), `false` on fuel
exhaustion (the Python loop would still be running). -/
def fetchRepliesLoop (server : Nat → String → Option PageData) (parent_cid : String) :
    Nat → ReplyState → ReplyState × Bool
  | 0, st => (st, false)
  | fuel + 1, st =>
    match repliesIter server parent_cid st with
    | .inl stop => (stop, true)
    | .inr next => fetchRepliesLoop server parent_cid fuel next

/-- `fetch_replies`: run the loop from the initial state (cursor `"0"`,
empty result list and dedup set). -/
def fetch_replies (server : Nat → String → Option PageData) (parent_cid : String)
    (fuel : Nat) : ReplyState × Bool :=
  fetchRepliesLoop server parent_cid fuel
    { replies := [], seen_ids := [], cursor := "0", requests := 0 }

/-- Ghost record of one materialized top-level comment: its id, the declared
reply total (`comment_obj["reply_count"] or 0`) and the inline reply count. -/
structure MatInfo where
  cid : String
  declared : Int
  inlined : Nat
deriving DecidableEq

/-- The state of one `fetch_comments` call.  The first four fields are the
Python local variables; the remaining fields are ghost traces for the
specification only (request count, `total_received` at each request, raw
length of each processed page, reply-fetch invocations, materializations). -/
structure FetchState where
  all_comments : List CommentRecord
  seen_ids : List String
  total_received : Nat
  cursor : String
  requests : Nat
  entry_totals : List Nat
  page_lens : List Nat
  reply_calls : List String
  materialized : List MatInfo
deriving DecidableEq

/-- The top-level record built in the `for c in comments` loop. -/
def topRecord (cid : String) (c : CommentItem) : CommentRecord :=
  { cid := cid
    text := c.text
    author_nickname := c.user_nickname
    author_unique_id := c.user_unique_id
    likes := c.digg_count
    reply_count := c.reply_comment_total
    parent_cid := none }

/-- The body of the `for c in comments` loop of `fetch_comments`: dedup by
id, materialize the record, and — when the declared reply total exceeds the
inline reply count — invoke `fetch_replies` once and append its results. -/
def commentStep (replyServer : String → Nat → String → Option PageData)
    (replyFuel : Nat) (st : FetchState) (c : CommentItem) : FetchState :=
  let cid := pyStr c.cid
  if st.seen_ids.contains cid then st
  else
    let st :=
      { st with
          seen_ids := cid :: st.seen_ids
          all_comments := st.all_comments ++ [topRecord cid c]
          materialized :=
            st.materialized ++ [⟨cid, pyOrInt0 c.reply_comment_total, inlineCount c⟩] }
    if triggersReplyFetch c then
      let rs := (fetch_replies (replyServer cid) cid replyFuel).1.replies
      { st with
          all_comments := st.all_comments ++ rs
          reply_calls := st.reply_calls ++ [cid] }
    else st

/-- The state change performed at each page request: one more request has
been issued, and the ghost trace records the `total_received` value the
request was issued with. -/
def bumpEntry (st : FetchState) : FetchState :=
  { st with
      requests := st.requests + 1
      entry_totals := st.entry_totals ++ [st.total_received] }

/-- `total_received += len(comments)` after a page was processed, plus the
ghost record of the raw page length. -/
def addPage (st : FetchState) (n : Nat) : FetchState :=
  { st with
      total_received := st.total_received + n
      page_lens := st.page_lens ++ [n] }

/-- One iteration of the `fetch_comments` `while True` loop: `.inl` is a
`break` (403, JSON parse failure, empty page, no further pages, or the
max-count ceiling), `.inr` continues with the updated cursor. -/
def commentsIter (server : Nat → String → HttpResponse)
    (replyServer : String → Nat → String → Option PageData)
    (maxComments replyFuel : Nat) (st : FetchState) : Sum FetchState FetchState :=
  let resp := server st.requests st.cursor
  if resp.status == 403 then .inl (bumpEntry st)
  else
    match resp.body with
    | none => .inl (bumpEntry st)
    | some pd =>
      let comments := pd.comments.getD []
      if comments.isEmpty then .inl (bumpEntry st)
      else
        let st2 :=
          addPage (comments.foldl (commentStep replyServer replyFuel) (bumpEntry st))
            comments.length
        if pd.has_more = false ∨ maxComments ≤ st2.total_received then .inl st2
        else .inr { st2 with cursor := toString pd.cursor }

/-- The `fetch_comments` loop, with fuel. -/
def fetchCommentsLoop (server : Nat → String → HttpResponse)
    (replyServer : String → Nat → String → Option PageData)
    (maxComments replyFuel : Nat) : Nat → FetchState → FetchState × Bool
  | 0, st => (st, false)
  | fuel + 1, st =>
    match commentsIter server replyServer maxComments replyFuel st with
    | .inl stop => (stop, true)
    | .inr next => fetchCommentsLoop server replyServer maxComments replyFuel fuel next

/-- `fetch_comments`: run the loop from the initial state (cursor `"0"`,
everything else empty/zero).  `maxComments` is the configured
`MAX_COMMENTS`; `replyFuel` is the fuel given to each `fetch_replies` call. -/
def fetch_comments (server : Nat → String → HttpResponse)
    (replyServer : String → Nat → String → Option PageData)
    (maxComments replyFuel fuel : Nat) : FetchState × Bool :=
  fetchCommentsLoop server replyServer maxComments replyFuel fuel
    { all_comments := [], seen_ids := [], total_received := 0, cursor := "0",
      requests := 0, entry_totals := [], page_lens := [], reply_calls := [],
      materialized := [] }

/-- The top-level records in the state (those without a parent id). -/
def topRecords (st : FetchState) : List CommentRecord :=
  st.all_comments.filter (fun r => r.parent_cid.isNone)

/-- The ids of the top-level records, in order. -/
def topCids (st : FetchState) : List String :=
  (topRecords st).map (fun r => r.cid)

/-- `text.replace("\n", " ")` for the single-character pattern: map each
newline character to a space. -/
def flattenNewlines (s : String) : String :=
  ⟨s.data.map (fun ch => if ch = '\n' then ' ' else ch)⟩

/-- `c.get("author_unique_id") or c.get("author_nickname") or "Unknown"`. -/
def displayName (c : CommentRecord) : String :=
  pyOrStr c.author_unique_id (pyOrStr c.author_nickname "Unknown")

/-- The per-record output line of `save_to_database`. -/
def commentLine (c : CommentRecord) : String :=
  "— (@" ++ displayName c ++ "): " ++ flattenNewlines (pyOrStr c.text "")

/-- The three header lines of one output block. -/
def headerLines (now link : String) (n : Nat) : List String :=
  ["=== Комментарии от " ++ now ++ " ===",
   "tik tok link: " ++ link,
   "✅ Найдено комментариев: " ++ toString n ++ "\n"]

/-- One output block: header lines, one line per record, and the trailing
blank line, joined with newlines. -/
def formatBlock (now link : String) (comments : List CommentRecord) : String :=
  String.intercalate "\n" (headerLines now link comments.length
    ++ comments.map commentLine ++ [""])

/-- `save_to_database`: the file is opened in append mode, so the new file
content is the prior content followed by the formatted block.  The timestamp
is a parameter. -/
def save_to_database (now link : String) (comments : List CommentRecord)
    (prior : String) : String :=
  prior ++ formatBlock now link comments

/-- One input item of the per-link loop of `main`: the original URL (used as
link and referer), the timestamp taken when its block is written, and the two
server oracles for it. -/
structure ItemRun where
  link : String
  now : String
  server : Nat → String → HttpResponse
  replyServer : String → Nat → String → Option PageData

/-- The per-link loop of `main` for the links whose id extraction succeeded:
each link is fetched with `fetch_comments` and appended to the shared output
with `save_to_database`; no outcome of one link stops the processing of the
next. -/
def processItems (maxComments replyFuel fuel : Nat) (runs : List ItemRun)
    (db : String) : String :=
  runs.foldl
    (fun db it =>
      save_to_database it.now it.link
        (fetch_comments it.server it.replyServer maxComments replyFuel fuel).1.all_comments
        db)
    db

/-! ### Simulated servers and concrete inputs used by the specifications -/

/-- A comment item with only an id and a declared reply total (all other
fields absent), as a minimal server payload. -/
def bareItem (c : Option String) (total : Option Int) : CommentItem :=
  { cid := c, text := none, user_nickname := none, user_unique_id := none,
    digg_count := none, reply_comment_total := total, reply_comment := none }

/-- A successful (HTTP 200) response carrying one parsed page. -/
def pageResponse (items : List CommentItem) (more : Bool) (cur : Nat) : HttpResponse :=
  { status := 200, body := some { comments := some items, has_more := more, cursor := cur } }

/-- A simulated comment-list server serving a fixed list of pages in request
order; `has_more` is reported on every page but the last, and requests past
the end get an empty page. -/
def pagedServer (pages : List (List CommentItem)) : Nat → String → HttpResponse :=
  fun i _ =>
    match pages[i]? with
    | some items => pageResponse items (decide (i + 1 < pages.length)) (i + 1)
    | none => pageResponse [] false 0

/-- A reply server whose responses never parse (no reply fetch succeeds). -/
def noReplyServer : String → Nat → String → Option PageData :=
  fun _ _ _ => none

/-- A reply server that answers one page containing a reply whose id collides
with the parent comment id `"c1"`. -/
def collidingReplyServer : String → Nat → String → Option PageData :=
  fun _ i _ =>
    if i == 0 then
      some { comments := some [bareItem (some "c1") none], has_more := false, cursor := 1 }
    else none

/-- A comment-list server that reissues the same comment id on every page and
always reports more pages. -/
def dupServer : Nat → String → HttpResponse :=
  fun i _ => pageResponse [bareItem (some "a") none] true (i + 1)

/-- A comment-list server that answers HTTP 403 to every request. -/
def forbiddenServer : Nat → String → HttpResponse :=
  fun _ _ => { status := 403, body := none }

/-- A credential file system where `cookies.json` exists but is malformed and
`cookies.txt` exists with one valid pair. -/
def mixedCredFiles : CredFiles :=
  { cookies_json := some .malformed, secret_cookies_json := none,
    cookies_txt := some "a=1", secret_cookies_txt := none,
    curl_extract := (none, none), secret_curl_extract := (none, none),
    ua_txt := none, secret_ua_txt := none }

/-! ### Generic helpers -/

/-- A fold preserves any invariant its step preserves. -/
theorem foldl_inv {α : Type _} {β : Type _} (P : α → Prop) (f : α → β → α)
    (h : ∀ a b, P a → P (f a b)) :
    ∀ (l : List β) (a : α), P a → P (l.foldl f a) := by
  intro l
  induction l with
  | nil => intro a ha; simpa using ha
  | cons x xs ih => intro a ha; exact ih (f a x) (h a x ha)

/-- `List.contains` agrees with membership for strings. -/
theorem contains_mem_iff (l : List String) (a : String) :
    l.contains a = true ↔ a ∈ l := by
  simp [List.contains, List.elem_iff]

/-! ### Reply fetcher invariants -/

/-- Invariant of one `fetch_replies` call: reply ids are pairwise distinct,
every emitted id is in the dedup set, and every record carries the parent. -/
def ReplyInv (parent_cid : String) (st : ReplyState) : Prop :=
  (st.replies.map (fun r => r.cid)).Nodup ∧
  (∀ x ∈ st.replies.map (fun r => r.cid), x ∈ st.seen_ids) ∧
  (∀ r ∈ st.replies, r.parent_cid = some parent_cid)

theorem replyStep_inv (p : String) (st : ReplyState) (rpl : CommentItem)
    (h : ReplyInv p st) : ReplyInv p (replyStep p st rpl) := by
  obtain ⟨h1, h2, h3⟩ := h
  simp only [replyStep]
  split
  · exact ⟨h1, h2, h3⟩
  · next hc =>
    have hnotseen : pyStr rpl.cid ∉ st.seen_ids := by
      intro hmem
      exact hc ((contains_mem_iff _ _).mpr hmem)
    refine ⟨?_, ?_, ?_⟩
    · rw [List.map_append, List.nodup_append]
      refine ⟨h1, by simp [replyRecord], ?_⟩
      intro x hx hx2
      simp [replyRecord] at hx2
      subst hx2
      exact hnotseen (h2 _ hx)
    · intro x hx
      rw [List.map_append, List.mem_append] at hx
      rcases hx with hx | hx
      · exact List.mem_cons_of_mem _ (h2 x hx)
      · simp [replyRecord] at hx
        simp [hx]
    · intro r hr
      rw [List.mem_append] at hr
      rcases hr with hr | hr
      · exact h3 r hr
      · simp at hr
        simp [hr, replyRecord]

theorem repliesIter_inl_inv (server : Nat → String → Option PageData) (p : String)
    (st s : ReplyState) (h : ReplyInv p st)
    (he : repliesIter server p st = .inl s) : ReplyInv p s := by
  simp only [repliesIter] at he
  have hup : ReplyInv p { st with requests := st.requests + 1 } := h
  split at he
  · cases he
    exact hup
  · split at he
    · cases he
      exact hup
    · split at he
      · cases he
        exact foldl_inv _ _ (fun a b ha => replyStep_inv p a b ha) _ _ hup
      · cases he

theorem repliesIter_inr_inv (server : Nat → String → Option PageData) (p : String)
    (st s : ReplyState) (h : ReplyInv p st)
    (he : repliesIter server p st = .inr s) : ReplyInv p s := by
  simp only [repliesIter] at he
  have hup : ReplyInv p { st with requests := st.requests + 1 } := h
  split at he
  · cases he
  · split at he
    · cases he
    · split at he
      · cases he
      · cases he
        exact foldl_inv _ _ (fun a b ha => replyStep_inv p a b ha) _ _ hup

theorem fetchRepliesLoop_inv (server : Nat → String → Option PageData) (p : String) :
    ∀ (fuel : Nat) (st : ReplyState), ReplyInv p st →
    ReplyInv p (fetchRepliesLoop server p fuel st).1 := by
  intro fuel
  induction fuel with
  | zero => intro st h; exact h
  | succ n ih =>
    intro st h
    unfold fetchRepliesLoop
    cases he : repliesIter server p st with
    | inl stop => simpa using repliesIter_inl_inv server p st stop h he
    | inr next =>
      simp only []
      exact ih next (repliesIter_inr_inv server p st next h he)

/-- Any `fetch_replies` result satisfies the reply invariant. -/
theorem fetchReplies_inv (server : Nat → String → Option PageData) (p : String)
    (fuel : Nat) : ReplyInv p (fetch_replies server p fuel).1 := by
  refine fetchRepliesLoop_inv server p fuel _ ?_
  refine ⟨by simp, by simp, by simp⟩

/-! ### Comment fetcher invariants -/

/-- Records returned by `fetch_replies` all carry the parent id. -/
theorem fetchReplies_parent (server : Nat → String → Option PageData) (p : String)
    (fuel : Nat) :
    ∀ r ∈ (fetch_replies server p fuel).1.replies, r.parent_cid = some p :=
  (fetchReplies_inv server p fuel).2.2

/-- Records returned by `fetch_replies` are filtered away by the top-level
(`parent_cid.isNone`) filter. -/
theorem fetchReplies_filter_none (server : Nat → String → Option PageData)
    (p : String) (fuel : Nat) :
    (fetch_replies server p fuel).1.replies.filter (fun r => r.parent_cid.isNone) = [] := by
  rw [List.filter_eq_nil_iff]
  intro r hr
  simp [fetchReplies_parent server p fuel r hr]

/-- The comment-loop body leaves all page-level counters untouched. -/
theorem commentStep_scalars (rs : String → Nat → String → Option PageData)
    (rf : Nat) (st : FetchState) (c : CommentItem) :
    (commentStep rs rf st c).total_received = st.total_received ∧
    (commentStep rs rf st c).requests = st.requests ∧
    (commentStep rs rf st c).entry_totals = st.entry_totals ∧
    (commentStep rs rf st c).page_lens = st.page_lens ∧
    (commentStep rs rf st c).cursor = st.cursor := by
  simp only [commentStep]
  split
  · exact ⟨rfl, rfl, rfl, rfl, rfl⟩
  · split <;> exact ⟨rfl, rfl, rfl, rfl, rfl⟩

theorem foldl_commentStep_scalars (rs : String → Nat → String → Option PageData)
    (rf : Nat) :
    ∀ (l : List CommentItem) (st : FetchState),
    (l.foldl (commentStep rs rf) st).total_received = st.total_received ∧
    (l.foldl (commentStep rs rf) st).requests = st.requests ∧
    (l.foldl (commentStep rs rf) st).entry_totals = st.entry_totals ∧
    (l.foldl (commentStep rs rf) st).page_lens = st.page_lens ∧
    (l.foldl (commentStep rs rf) st).cursor = st.cursor := by
  intro l
  induction l with
  | nil => intro st; exact ⟨rfl, rfl, rfl, rfl, rfl⟩
  | cons x xs ih =>
    intro st
    have h := commentStep_scalars rs rf st x
    have h2 := ih (commentStep rs rf st x)
    simp only [List.foldl_cons]
    exact ⟨h2.1.trans h.1, h2.2.1.trans h.2.1, h2.2.2.1.trans h.2.2.1,
      h2.2.2.2.1.trans h.2.2.2.1, h2.2.2.2.2.trans h.2.2.2.2⟩

/-- Case analysis of the comment-loop body: either the id was already seen
and the state is unchanged, or exactly one top-level record (and possibly
replies, which the top-level filter removes) is appended. -/
theorem commentStep_top (rs : String → Nat → String → Option PageData) (rf : Nat)
    (st : FetchState) (c : CommentItem) :
    commentStep rs rf st c = st ∨
    (st.seen_ids.contains (pyStr c.cid) = false ∧
     topCids (commentStep rs rf st c) = topCids st ++ [pyStr c.cid] ∧
     (commentStep rs rf st c).seen_ids = pyStr c.cid :: st.seen_ids ∧
     (commentStep rs rf st c).materialized =
       st.materialized ++ [⟨pyStr c.cid, pyOrInt0 c.reply_comment_total, inlineCount c⟩] ∧
     (commentStep rs rf st c).reply_calls =
       (if triggersReplyFetch c then st.reply_calls ++ [pyStr c.cid] else st.reply_calls)) := by
  cases hcv : st.seen_ids.contains (pyStr c.cid) with
  | true =>
    have hmem : pyStr c.cid ∈ st.seen_ids := (contains_mem_iff _ _).mp hcv
    left
    simp [commentStep, hmem]
  | false =>
    have hmem : pyStr c.cid ∉ st.seen_ids := fun hm => by
      rw [(contains_mem_iff _ _).mpr hm] at hcv
      cases hcv
    right
    refine ⟨rfl, ?_, ?_, ?_, ?_⟩
    · cases ht : triggersReplyFetch c <;>
        simp [commentStep, hmem, ht, topCids, topRecords, List.filter_append,
          List.filter_cons, fetchReplies_filter_none, topRecord]
    · cases ht : triggersReplyFetch c <;> simp [commentStep, hmem, ht]
    · cases ht : triggersReplyFetch c <;> simp [commentStep, hmem, ht]
    · cases ht : triggersReplyFetch c <;> simp [commentStep, hmem, ht]

/-- The per-fetch dedup invariant of `fetch_comments`: the ids of the
top-level records are pairwise distinct and recorded in the dedup set, the
ghost materialization trace lists exactly the top-level ids, and the
reply-call trace lists exactly the materialized ids whose declared reply
total exceeded the inline reply count. -/
def CoreInv (st : FetchState) : Prop :=
  (topCids st).Nodup ∧
  (∀ x ∈ topCids st, x ∈ st.seen_ids) ∧
  st.materialized.map (fun m => m.cid) = topCids st ∧
  st.reply_calls =
    (st.materialized.filter (fun m => decide ((m.inlined : Int) < m.declared))).map
      (fun m => m.cid)

theorem commentStep_core (rs : String → Nat → String → Option PageData) (rf : Nat)
    (st : FetchState) (c : CommentItem) (h : CoreInv st) :
    CoreInv (commentStep rs rf st c) := by
  obtain ⟨h1, h2, h3, h4⟩ := h
  rcases commentStep_top rs rf st c with heq | ⟨hc, htop, hseen, hmat, hcalls⟩
  · rw [heq]; exact ⟨h1, h2, h3, h4⟩
  · have hnot : pyStr c.cid ∉ st.seen_ids := by
      intro hm
      rw [(contains_mem_iff _ _).mpr hm] at hc
      cases hc
    have hnottop : pyStr c.cid ∉ topCids st := fun hm => hnot (h2 _ hm)
    refine ⟨?_, ?_, ?_, ?_⟩
    · rw [htop, List.nodup_append]
      refine ⟨h1, List.nodup_singleton _, ?_⟩
      intro x hx hx2
      simp at hx2
      subst hx2
      exact hnottop hx
    · intro x hx
      rw [htop, List.mem_append] at hx
      rw [hseen]
      rcases hx with hx | hx
      · exact List.mem_cons_of_mem _ (h2 x hx)
      · simp at hx
        simp [hx]
    · rw [hmat, htop, List.map_append, h3]
      simp
    · rw [hcalls, hmat, List.filter_append, List.map_append, h4]
      cases ht : triggersReplyFetch c with
      | true =>
        have hmi : (fun m : MatInfo => decide ((m.inlined : Int) < m.declared))
            ⟨pyStr c.cid, pyOrInt0 c.reply_comment_total, inlineCount c⟩ = true := ht
        simp [List.filter_cons, hmi]
      | false =>
        have hmi : (fun m : MatInfo => decide ((m.inlined : Int) < m.declared))
            ⟨pyStr c.cid, pyOrInt0 c.reply_comment_total, inlineCount c⟩ = false := ht
        simp [List.filter_cons, hmi]

/-- The properties of the fetch state that hold at every `break` of the
pagination loop: the dedup invariant, `total_received` is exactly the sum of
the raw page lengths, and every request was issued with a running total of
`0` or below the ceiling. -/
def IterInv (M : Nat) (st : FetchState) : Prop :=
  CoreInv st ∧
  st.total_received = st.page_lens.sum ∧
  (∀ t ∈ st.entry_totals, t < M ∨ t = 0)

/-- `IterInv` strengthened with the guard that lets the loop issue another
request. -/
def LoopInv (M : Nat) (st : FetchState) : Prop :=
  IterInv M st ∧ (st.total_received < M ∨ st.total_received = 0)

theorem bumpEntry_iterInv (M : Nat) (st : FetchState) (h : LoopInv M st) :
    IterInv M (bumpEntry st) := by
  obtain ⟨⟨hcore, hsum, hent⟩, hcur⟩ := h
  refine ⟨hcore, hsum, ?_⟩
  intro t ht
  simp only [bumpEntry, List.mem_append, List.mem_singleton] at ht
  rcases ht with ht | ht
  · exact hent t ht
  · subst ht
    exact hcur

theorem commentsIter_inl_inv (server : Nat → String → HttpResponse)
    (rs : String → Nat → String → Option PageData) (M rf : Nat)
    (st s : FetchState) (h : LoopInv M st)
    (he : commentsIter server rs M rf st = .inl s) : IterInv M s := by
  have hbump := bumpEntry_iterInv M st h
  simp only [commentsIter] at he
  split at he
  · cases he; exact hbump
  · split at he
    · cases he; exact hbump
    · next pd _ =>
      split at he
      · cases he; exact hbump
      · split at he
        · cases he
          obtain ⟨hcore, hsum, hent⟩ := hbump
          have hsc := foldl_commentStep_scalars rs rf (pd.comments.getD []) (bumpEntry st)
          refine ⟨?_, ?_, ?_⟩
          · exact foldl_inv CoreInv _ (fun a b ha => commentStep_core rs rf a b ha) _ _ hcore
          · simp only [addPage, List.sum_append, List.sum_cons, List.sum_nil, add_zero]
            rw [hsc.1, hsc.2.2.2.1, hsum]
          · intro t ht
            simp only [addPage] at ht
            rw [hsc.2.2.1] at ht
            exact hent t ht
        · cases he

theorem commentsIter_inr_inv (server : Nat → String → HttpResponse)
    (rs : String → Nat → String → Option PageData) (M rf : Nat)
    (st s : FetchState) (h : LoopInv M st)
    (he : commentsIter server rs M rf st = .inr s) : LoopInv M s := by
  have hbump := bumpEntry_iterInv M st h
  simp only [commentsIter] at he
  split at he
  · cases he
  · split at he
    · cases he
    · next pd _ =>
      split at he
      · cases he
      · split at he
        · cases he
        · next hcond =>
          cases he
          obtain ⟨hcore, hsum, hent⟩ := hbump
          have hsc := foldl_commentStep_scalars rs rf (pd.comments.getD []) (bumpEntry st)
          have hlt : (addPage (List.foldl (commentStep rs rf) (bumpEntry st)
              (pd.comments.getD [])) (pd.comments.getD []).length).total_received < M := by
            rcases Nat.lt_or_ge
              ((addPage (List.foldl (commentStep rs rf) (bumpEntry st)
                (pd.comments.getD [])) (pd.comments.getD []).length).total_received) M with
              hlt | hge
            · exact hlt
            · exact absurd (Or.inr hge) hcond
          refine ⟨⟨?_, ?_, ?_⟩, Or.inl hlt⟩
          · exact foldl_inv CoreInv _ (fun a b ha => commentStep_core rs rf a b ha) _ _ hcore
          · simp only [addPage, List.sum_append, List.sum_cons, List.sum_nil, add_zero]
            rw [hsc.1, hsc.2.2.2.1, hsum]
          · intro t ht
            simp only [addPage] at ht
            rw [hsc.2.2.1] at ht
            exact hent t ht

theorem fetchCommentsLoop_inv (server : Nat → String → HttpResponse)
    (rs : String → Nat → String → Option PageData) (M rf : Nat) :
    ∀ (fuel : Nat) (st : FetchState), LoopInv M st →
    IterInv M (fetchCommentsLoop server rs M rf fuel st).1 := by
  intro fuel
  induction fuel with
  | zero => intro st h; exact h.1
  | succ n ih =>
    intro st h
    unfold fetchCommentsLoop
    cases he : commentsIter server rs M rf st with
    | inl stop => simpa using commentsIter_inl_inv server rs M rf st stop h he
    | inr next =>
      simp only []
      exact ih next (commentsIter_inr_inv server rs M rf st next h he)

/-- Every `fetch_comments` run satisfies the master invariant. -/
theorem masterRun (server : Nat → String → HttpResponse)
    (rs : String → Nat → String → Option PageData) (M rf fuel : Nat) :
    IterInv M (fetch_comments server rs M rf fuel).1 := by
  refine fetchCommentsLoop_inv server rs M rf fuel _ ⟨⟨⟨?_, ?_, ?_, ?_⟩, ?_, ?_⟩, ?_⟩
  · simp [topCids, topRecords]
  · simp [topCids, topRecords]
  · simp [topCids, topRecords]
  · simp
  · simp
  · simp
  · exact Or.inr rfl

/-! ### Exact request count on a simulated paged server -/

/-- The comment-loop body adds at most one top-level record. -/
theorem commentStep_top_len (rs : String → Nat → String → Option PageData) (rf : Nat)
    (st : FetchState) (c : CommentItem) :
    (topCids (commentStep rs rf st c)).length ≤ (topCids st).length + 1 := by
  rcases commentStep_top rs rf st c with heq | ⟨_, htop, _, _, _⟩
  · rw [heq]; omega
  · rw [htop]; simp

/-- Processing a page of `n` items adds at most `n` top-level records. -/
theorem foldl_commentStep_top_len (rs : String → Nat → String → Option PageData)
    (rf : Nat) :
    ∀ (l : List CommentItem) (st : FetchState),
    (topCids (l.foldl (commentStep rs rf) st)).length ≤ (topCids st).length + l.length := by
  intro l
  induction l with
  | nil => intro st; simp
  | cons x xs ih =>
    intro st
    have h1 := commentStep_top_len rs rf st x
    have h2 := ih (commentStep rs rf st x)
    simp only [List.foldl_cons, List.length_cons]
    omega

theorem c3_loop (pages : List (List CommentItem))
    (rserver : String → Nat → String → Option PageData) (P M rf : Nat)
    (hP : ∀ pg ∈ pages, pg.length = P) (hPpos : 0 < P) (hM : pages.length * P < M) :
    ∀ (rem fuel : Nat) (st : FetchState), rem ≤ fuel → 0 < rem →
    st.requests + rem = pages.length →
    st.total_received = st.requests * P →
    (topCids st).length ≤ st.requests * P →
    ((fetchCommentsLoop (pagedServer pages) rserver M rf fuel st).2 = true ∧
     (fetchCommentsLoop (pagedServer pages) rserver M rf fuel st).1.requests = pages.length ∧
     (topCids (fetchCommentsLoop (pagedServer pages) rserver M rf fuel st).1).length ≤
       pages.length * P) := by
  intro rem
  induction rem with
  | zero => intro fuel st _ h0 _ _ _; exact absurd h0 (by omega)
  | succ n ih =>
    intro fuel st hle hpos hreq htot htop
    cases fuel with
    | zero => exact absurd hle (by omega)
    | succ f =>
      have hlt : st.requests < pages.length := by omega
      have hget : pages[st.requests]? = some pages[st.requests] :=
        List.getElem?_eq_getElem hlt
      have hpgmem : pages[st.requests] ∈ pages := List.getElem_mem hlt
      have hpglen : pages[st.requests].length = P := hP _ hpgmem
      have hpgne : pages[st.requests].isEmpty = false := by
        cases hpe : pages[st.requests] with
        | nil => rw [hpe] at hpglen; simp at hpglen; omega
        | cons a l => rfl
      have hserver : pagedServer pages st.requests st.cursor =
          pageResponse pages[st.requests] (decide (st.requests + 1 < pages.length))
            (st.requests + 1) := by
        simp [pagedServer, hget]
      have hiter : commentsIter (pagedServer pages) rserver M rf st =
          (if decide (st.requests + 1 < pages.length) = false ∨
              M ≤ (addPage (pages[st.requests].foldl (commentStep rserver rf) (bumpEntry st))
                pages[st.requests].length).total_received
            then .inl (addPage (pages[st.requests].foldl (commentStep rserver rf)
              (bumpEntry st)) pages[st.requests].length)
            else .inr { addPage (pages[st.requests].foldl (commentStep rserver rf)
                (bumpEntry st)) pages[st.requests].length with
                cursor := toString (st.requests + 1) }) := by
        simp only [commentsIter, hserver, pageResponse]
        simp [hpgne]
      have hsc := foldl_commentStep_scalars rserver rf pages[st.requests] (bumpEntry st)
      have hreq2 : (addPage (pages[st.requests].foldl (commentStep rserver rf)
          (bumpEntry st)) pages[st.requests].length).requests = st.requests + 1 := by
        simp only [addPage]
        rw [hsc.2.1]
        rfl
      have htot2 : (addPage (pages[st.requests].foldl (commentStep rserver rf)
          (bumpEntry st)) pages[st.requests].length).total_received =
          (st.requests + 1) * P := by
        simp only [addPage]
        rw [hsc.1]
        show st.total_received + pages[st.requests].length = (st.requests + 1) * P
        rw [htot, hpglen]
        ring
      have htop2 : (topCids (addPage (pages[st.requests].foldl (commentStep rserver rf)
          (bumpEntry st)) pages[st.requests].length)).length ≤ (st.requests + 1) * P := by
        have h := foldl_commentStep_top_len rserver rf pages[st.requests] (bumpEntry st)
        have hb : topCids (bumpEntry st) = topCids st := rfl
        have ha : topCids (addPage (pages[st.requests].foldl (commentStep rserver rf)
            (bumpEntry st)) pages[st.requests].length) =
            topCids (pages[st.requests].foldl (commentStep rserver rf) (bumpEntry st)) := rfl
        rw [ha]
        rw [hb] at h
        rw [hpglen] at h
        calc (topCids (pages[st.requests].foldl (commentStep rserver rf)
              (bumpEntry st))).length ≤ (topCids st).length + P := h
          _ ≤ st.requests * P + P := by omega
          _ = (st.requests + 1) * P := by ring
      cases n with
      | zero =>
        have hhm : decide (st.requests + 1 < pages.length) = false := by
          simp only [decide_eq_false_iff_not]
          omega
        have hcond : decide (st.requests + 1 < pages.length) = false ∨
            M ≤ (addPage (pages[st.requests].foldl (commentStep rserver rf)
              (bumpEntry st)) pages[st.requests].length).total_received := Or.inl hhm
        unfold fetchCommentsLoop
        rw [hiter, if_pos hcond]
        refine ⟨rfl, ?_, ?_⟩
        · rw [hreq2]; omega
        · have hlen : st.requests + 1 = pages.length := by omega
          rw [← hlen]
          exact htop2
      | succ m =>
        have h1 : st.requests + 1 < pages.length := by omega
        have hmul : (st.requests + 1) * P ≤ pages.length * P :=
          Nat.mul_le_mul_right P (by omega)
        have hnoceil : ¬ M ≤ (addPage (pages[st.requests].foldl (commentStep rserver rf)
            (bumpEntry st)) pages[st.requests].length).total_received := by
          rw [htot2]
          omega
        have hcond : ¬ (decide (st.requests + 1 < pages.length) = false ∨
            M ≤ (addPage (pages[st.requests].foldl (commentStep rserver rf)
              (bumpEntry st)) pages[st.requests].length).total_received) := by
          rw [decide_eq_true h1]
          simp [hnoceil]
        unfold fetchCommentsLoop
        rw [hiter, if_neg hcond]
        refine ih f _ (by omega) (by omega) ?_ ?_ ?_
        · show (addPage (pages[st.requests].foldl (commentStep rserver rf)
            (bumpEntry st)) pages[st.requests].length).requests + (m + 1) = pages.length
          rw [hreq2]
          omega
        · show (addPage (pages[st.requests].foldl (commentStep rserver rf)
            (bumpEntry st)) pages[st.requests].length).total_received =
            (addPage (pages[st.requests].foldl (commentStep rserver rf)
              (bumpEntry st)) pages[st.requests].length).requests * P
          rw [htot2, hreq2]
        · show (topCids (addPage (pages[st.requests].foldl (commentStep rserver rf)
            (bumpEntry st)) pages[st.requests].length)).length ≤
            (addPage (pages[st.requests].foldl (commentStep rserver rf)
              (bumpEntry st)) pages[st.requests].length).requests * P
          rw [hreq2]
          exact htop2

/-! ### Counting helper for the reply-trigger claim -/

theorem count_filter_map (p : MatInfo → Bool) :
    ∀ (l : List MatInfo) (m : MatInfo),
    (l.map (fun x => x.cid)).Nodup → m ∈ l →
    ((l.filter p).map (fun x => x.cid)).count m.cid = if p m then 1 else 0 := by
  intro l
  induction l with
  | nil => intro m _ hm; cases hm
  | cons x xs ih =>
    intro m hnd hm
    rw [List.map_cons, List.nodup_cons] at hnd
    obtain ⟨hx, hnd2⟩ := hnd
    rcases List.mem_cons.mp hm with rfl | hm2
    · have hzero : ((xs.filter p).map (fun y => y.cid)).count m.cid = 0 := by
        rw [List.count_eq_zero]
        intro hmem
        apply hx
        obtain ⟨y, hy, hyc⟩ := List.mem_map.mp hmem
        exact List.mem_map.mpr ⟨y, (List.mem_filter.mp hy).1, hyc⟩
      by_cases hp : p m = true
      · rw [List.filter_cons_of_pos hp, List.map_cons, List.count_cons]
        simp [hp, hzero]
      · rw [List.filter_cons_of_neg hp]
        simp [hp, hzero]
    · have hne : x.cid ≠ m.cid := by
        intro he
        apply hx
        rw [he]
        exact List.mem_map.mpr ⟨m, hm2, rfl⟩
      have hih := ih m hnd2 hm2
      by_cases hp : p x = true
      · rw [List.filter_cons_of_pos hp, List.map_cons, List.count_cons]
        simp [hne, hih]
      · rw [List.filter_cons_of_neg hp]
        exact hih

/-! ### The effect of an initial 403 -/

/-- A 403 on the very first page request makes `fetch_comments` return
normally (through `break`) with an empty result after exactly one request. -/
theorem fetchComments_403 (server : Nat → String → HttpResponse)
    (rs : String → Nat → String → Option PageData) (M rf f : Nat)
    (h403 : (server 0 "0").status = 403) :
    fetch_comments server rs M rf (f + 1) =
      ({ all_comments := [], seen_ids := [], total_received := 0, cursor := "0",
         requests := 1, entry_totals := [0], page_lens := [], reply_calls := [],
         materialized := [] }, true) := by
  unfold fetch_comments fetchCommentsLoop commentsIter
  simp [h403, bumpEntry]

/-! ### Trace of the `ua.txt` loop -/

theorem uaFileStep_paths :
    ∀ (cands : List (CredPath × Option String)) (ua0 : Option String) (p : CredPath),
    p ∈ (uaFileStep ua0 cands).2 → p ∈ cands.map (fun q => q.1) := by
  intro cands
  induction cands with
  | nil => intro ua0 p hp; simp [uaFileStep] at hp
  | cons x xs ih =>
    intro ua0 p hp
    obtain ⟨q, content⟩ := x
    simp only [uaFileStep] at hp
    cases content with
    | none =>
      simp only [List.map_cons]
      exact List.mem_cons_of_mem _ (ih ua0 p hp)
    | some s =>
      simp only [List.map_cons]
      by_cases hps : pyStrip s = ""
      · simp only [hps, if_pos] at hp
        rcases List.mem_cons.mp hp with rfl | hp2
        · exact List.mem_cons_self _ _
        · exact List.mem_cons_of_mem _ (ih _ p hp2)
      · simp only [hps, if_neg] at hp
        rcases List.mem_singleton.mp hp with rfl
        exact List.mem_cons_self _ _

/-! ### Concrete inputs for witnesses -/

/-- Two pages of two fresh comments each, for the pagination witness. -/
def demoPages : List (List CommentItem) :=
  [[bareItem (some "1") none, bareItem (some "2") none],
   [bareItem (some "3") none, bareItem (some "4") none]]

/-- A second input item (link `"L2"`) served by the demo pages. -/
def demoItem : ItemRun :=
  ⟨"L2", "T2", pagedServer demoPages, noReplyServer⟩

/-- A credential file system whose `cookies.json` parses to a non-empty jar
while `cookies.txt` also exists. -/
def jsonCredFiles : CredFiles :=
  { cookies_json := some (.obj [("k", "v")]), secret_cookies_json := none,
    cookies_txt := some "a=1", secret_cookies_txt := none,
    curl_extract := (none, none), secret_curl_extract := (none, none),
    ua_txt := none, secret_ua_txt := none }

/-! ### Claims -/

/-- C1, counterexample: the merged list returned by `fetch_comments` does not
always have pairwise-distinct cid values.  A server whose single top-level
comment `"c1"` declares one reply, and whose reply listing returns a reply
with the same id `"c1"`, yields the merged id list `["c1", "c1"]`: the
top-level dedup set and the reply dedup set are separate scopes. -/
theorem merged_list_duplicate_cid :
    ¬ (((fetch_comments (pagedServer [[bareItem (some "c1") (some 1)]])
        collidingReplyServer 100000 3 3).1.all_comments.map
      (fun r => r.cid)).Nodup) := by
  decide

/-- C1, amended: within each single fetch operation deduplication holds: the
top-level records returned by `fetch_comments` have pairwise-distinct cids,
and the records returned by any one `fetch_replies` call have
pairwise-distinct cids (only the merged interleaving across scopes can
repeat an id). -/
theorem per_scope_dedup (server : Nat → String → HttpResponse)
    (replyServer : String → Nat → String → Option PageData)
    (rserver2 : Nat → String → Option PageData)
    (M rf fuel : Nat) (parent : String) (rfuel : Nat) :
    (topCids (fetch_comments server replyServer M rf fuel).1).Nodup ∧
    ((fetch_replies rserver2 parent rfuel).1.replies.map (fun r => r.cid)).Nodup :=
  ⟨(masterRun server replyServer M rf fuel).1.1,
   (fetchReplies_inv rserver2 parent rfuel).1⟩

/-- C2: every page request of `fetch_comments` is issued with a running
total that is `0` (the first request) or strictly below the configured
maximum, and the running total counts exactly the raw top-level page item
counts — replies fetched by `fetch_replies` are never added to it. -/
theorem max_count_entry_bound (server : Nat → String → HttpResponse)
    (rs : String → Nat → String → Option PageData) (M rf fuel : Nat) :
    ((fetch_comments server rs M rf fuel).1.entry_totals.all
      (fun t => decide (t < M) || decide (t = 0))) = true ∧
    (fetch_comments server rs M rf fuel).1.total_received =
      (fetch_comments server rs M rf fuel).1.page_lens.sum := by
  have h := masterRun server rs M rf fuel
  refine ⟨?_, h.2.1⟩
  rw [List.all_eq_true]
  intro t ht
  rcases h.2.2 t ht with h1 | h1 <;> simp [h1]

/-- C3: a simulated server serving `K` non-empty pages of `P` comments each
and reporting no more pages on the `K`-th response (with `K * P` below the
maximum) makes `fetch_comments` terminate with exactly `K` page requests and
at most `K * P` top-level comments (plus any replies). -/
theorem pagination_exact_requests (pages : List (List CommentItem)) (P M rf fuel : Nat)
    (rserver : String → Nat → String → Option PageData)
    (hne : pages ≠ []) (hP : ∀ pg ∈ pages, pg.length = P) (hPpos : 0 < P)
    (hM : pages.length * P < M) (hfuel : pages.length ≤ fuel) :
    (fetch_comments (pagedServer pages) rserver M rf fuel).2 = true ∧
    (fetch_comments (pagedServer pages) rserver M rf fuel).1.requests = pages.length ∧
    (topCids (fetch_comments (pagedServer pages) rserver M rf fuel).1).length ≤
      pages.length * P := by
  have hlen : 0 < pages.length := List.length_pos.mpr hne
  unfold fetch_comments
  exact c3_loop pages rserver P M rf hP hPpos hM pages.length fuel _ hfuel hlen
    (by simp) (by simp) (by simp [topCids, topRecords])

/-- Witness for C3 at a concrete input: two pages of two comments each. -/
theorem pagination_exact_requests_witness :
    (fetch_comments (pagedServer demoPages) noReplyServer 100 1 10).2 = true ∧
    (fetch_comments (pagedServer demoPages) noReplyServer 100 1 10).1.requests =
      demoPages.length ∧
    (topCids (fetch_comments (pagedServer demoPages) noReplyServer 100 1 10).1).length ≤
      demoPages.length * 2 :=
  pagination_exact_requests demoPages 2 100 1 10 noReplyServer (by decide)
    (by decide) (by decide) (by decide) (by decide)

/-- C4: `fetch_replies` is invoked exactly once for each materialized comment
whose declared reply total exceeds its inline reply count and zero times for
every other materialized comment; a comment whose declared reply count field
is absent never triggers. -/
theorem reply_fetch_trigger (server : Nat → String → HttpResponse)
    (rs : String → Nat → String → Option PageData) (M rf fuel : Nat) :
    ((fetch_comments server rs M rf fuel).1.materialized.map (fun m => m.cid)) =
      topCids (fetch_comments server rs M rf fuel).1 ∧
    ((fetch_comments server rs M rf fuel).1.materialized.map (fun m => m.cid)).Nodup ∧
    (fetch_comments server rs M rf fuel).1.reply_calls =
      ((fetch_comments server rs M rf fuel).1.materialized.filter
        (fun m => decide ((m.inlined : Int) < m.declared))).map (fun m => m.cid) ∧
    ((fetch_comments server rs M rf fuel).1.materialized.all (fun m =>
      (fetch_comments server rs M rf fuel).1.reply_calls.count m.cid ==
        if decide ((m.inlined : Int) < m.declared) then 1 else 0)) = true ∧
    (∀ c : CommentItem, triggersReplyFetch { c with reply_comment_total := none } = false) := by
  obtain ⟨⟨hnd, hsub, hmat, hcalls⟩, _, _⟩ := masterRun server rs M rf fuel
  have hndm : ((fetch_comments server rs M rf fuel).1.materialized.map
      (fun m => m.cid)).Nodup := by rw [hmat]; exact hnd
  refine ⟨hmat, hndm, hcalls, ?_, ?_⟩
  · rw [List.all_eq_true]
    intro m hm
    rw [hcalls]
    rw [count_filter_map (fun m => decide ((m.inlined : Int) < m.declared))
      _ m hndm hm]
    simp
  · intro c
    have hn : ¬ ((inlineCount { c with reply_comment_total := none } : Int) <
        pyOrInt0 ({ c with reply_comment_total := none } : CommentItem).reply_comment_total) := by
      simp [pyOrInt0]
    exact decide_eq_false hn

/-- C5: when the first comment-list request answers HTTP 403,
`fetch_comments` breaks out of its loop at once: it returns an empty result
list after exactly one request (no retry), without raising, and the per-link
loop of `main` goes on to process the next input item. -/
theorem forbidden_first_page (server : Nat → String → HttpResponse)
    (rs : String → Nat → String → Option PageData) (M rf fuel : Nat)
    (it2 : ItemRun) (link now db : String)
    (h403 : (server 0 "0").status = 403) (hfuel : 0 < fuel) :
    (fetch_comments server rs M rf fuel).1.all_comments = [] ∧
    (fetch_comments server rs M rf fuel).1.requests = 1 ∧
    (fetch_comments server rs M rf fuel).2 = true ∧
    processItems M rf fuel [⟨link, now, server, rs⟩, it2] db =
      save_to_database it2.now it2.link
        (fetch_comments it2.server it2.replyServer M rf fuel).1.all_comments
        (save_to_database now link [] db) := by
  obtain ⟨f, rfl⟩ : ∃ f, fuel = f + 1 := ⟨fuel - 1, by omega⟩
  have hrun := fetchComments_403 server rs M rf f h403
  refine ⟨by rw [hrun], by rw [hrun], by rw [hrun], ?_⟩
  simp only [processItems, List.foldl_cons, List.foldl_nil]
  rw [hrun]

/-- Witness for C5 at a concrete input: a server answering 403. -/
theorem forbidden_first_page_witness :
    (fetch_comments forbiddenServer noReplyServer 100 1 5).1.all_comments = [] ∧
    (fetch_comments forbiddenServer noReplyServer 100 1 5).1.requests = 1 ∧
    (fetch_comments forbiddenServer noReplyServer 100 1 5).2 = true ∧
    processItems 100 1 5 [⟨"L1", "T1", forbiddenServer, noReplyServer⟩, demoItem] "" =
      save_to_database demoItem.now demoItem.link
        (fetch_comments demoItem.server demoItem.replyServer 100 1 5).1.all_comments
        (save_to_database "T1" "L1" [] "") :=
  forbidden_first_page forbiddenServer noReplyServer 100 1 5 demoItem "L1" "T1" ""
    rfl (by decide)

/-- C6, counterexample: mere existence of `cookies.json` does not make the
loader use it exclusively.  When `cookies.json` exists but is malformed while
`cookies.txt` exists with a valid pair, the returned jar is derived from
`cookies.txt`, which is read. -/
theorem structured_file_not_exclusive :
    mixedCredFiles.cookies_json ≠ none ∧
    mixedCredFiles.cookies_txt ≠ none ∧
    CredPath.cookiesTxt ∈ (load_cookies_and_ua mixedCredFiles).2 ∧
    (load_cookies_and_ua mixedCredFiles).1 = some ([("a", "1")], fallbackUA) := by
  refine ⟨by decide, by decide, by decide, by decide⟩

/-- C6, amended: whenever `cookies.json` itself loads as a non-empty cookie
mapping, that mapping is returned as the jar and neither `cookies.txt` nor
`.secret/cookies.txt` is ever read; only when the structured file is absent,
malformed, or empty does the loader fall through to the raw header file. -/
theorem structured_cookie_precedence (fs : CredFiles) (jar : List (String × String))
    (hj : load_cookies_from_json fs.cookies_json = some jar) (hne : jar ≠ []) :
    (∃ ua, (load_cookies_and_ua fs).1 = some (jar, ua)) ∧
    CredPath.cookiesTxt ∉ (load_cookies_and_ua fs).2 ∧
    CredPath.secretCookiesTxt ∉ (load_cookies_and_ua fs).2 := by
  have hie : jar.isEmpty = false := by
    cases jar with
    | nil => exact absurd rfl hne
    | cons a l => rfl
  have h1 : firstGoodJar [(.cookiesJson, fs.cookies_json),
      (.secretCookiesJson, fs.secret_cookies_json)] = (some jar, [.cookiesJson]) := by
    simp [firstGoodJar, hj, hie]
  have htr : (load_cookies_and_ua fs).2 =
      CredPath.cookiesJson :: (uaFileStep none
        [(.uaTxt, fs.ua_txt), (.secretUaTxt, fs.secret_ua_txt)]).2 ∧
      (∃ ua, (load_cookies_and_ua fs).1 = some (jar, ua)) := by
    simp only [load_cookies_and_ua, h1, hie]
    simp [hie]
  obtain ⟨htrace, hjar⟩ := htr
  refine ⟨hjar, ?_, ?_⟩
  · rw [htrace]
    intro hmem
    rcases List.mem_cons.mp hmem with h | h
    · cases h
    · have := uaFileStep_paths _ none _ h
      simp at this
  · rw [htrace]
    intro hmem
    rcases List.mem_cons.mp hmem with h | h
    · cases h
    · have := uaFileStep_paths _ none _ h
      simp at this

/-- Witness for the amended C6 at a concrete input: a well-formed
`cookies.json` next to an existing `cookies.txt`. -/
theorem structured_cookie_precedence_witness :
    (∃ ua, (load_cookies_and_ua jsonCredFiles).1 = some ([("k", "v")], ua)) ∧
    CredPath.cookiesTxt ∉ (load_cookies_and_ua jsonCredFiles).2 ∧
    CredPath.secretCookiesTxt ∉ (load_cookies_and_ua jsonCredFiles).2 :=
  structured_cookie_precedence jsonCredFiles [("k", "v")] (by decide) (by decide)

/-- C7: the writer appends — the new file content is the prior bytes,
unchanged, followed by exactly one formatted block — and within the block
every newline character of a comment's text is replaced by a space
(`flattenNewlines` output never contains a newline). -/
theorem writer_append_flatten (now link : String) (comments : List CommentRecord)
    (prior : String) :
    (save_to_database now link comments prior).data =
      prior.data ++ (formatBlock now link comments).data ∧
    (∀ s : String, ((flattenNewlines s).data.all (fun ch => ch != '\n')) = true) ∧
    (∀ c : CommentRecord,
      commentLine c = "— (@" ++ displayName c ++ "): "
        ++ flattenNewlines (pyOrStr c.text "")) := by
  refine ⟨String.data_append prior (formatBlock now link comments), ?_, fun c => rfl⟩
  intro s
  rw [List.all_eq_true]
  intro ch hch
  replace hch : ch ∈ s.data.map (fun c => if c = '\n' then ' ' else c) := hch
  obtain ⟨a, _, rfl⟩ := List.mem_map.mp hch
  by_cases ha : a = '\n'
  · simp [ha]
  · simp [ha]

/-- C8: the cookie-header parser maps `"a=1; b=2; "` to the two-entry jar
`{a: "1", b: "2"}`, trimming names and values and ignoring the trailing
empty segment. -/
theorem cookie_header_example :
    parse_cookie_header "a=1; b=2; " = [("a", "1"), ("b", "2")] := by
  decide

/-- C9: `total_received` counts every page item as received, including items
skipped by the dedup set, so it always equals the sum of raw page lengths;
with `MAX_COMMENTS = 2` and a server that reissues the same id on every page
with `has_more` always set, the fetch stops at the ceiling after two requests
with only one unique top-level comment. -/
theorem total_received_counts_duplicates :
    (fetch_comments dupServer noReplyServer 2 1 5).2 = true ∧
    (fetch_comments dupServer noReplyServer 2 1 5).1.requests = 2 ∧
    (fetch_comments dupServer noReplyServer 2 1 5).1.total_received = 2 ∧
    (fetch_comments dupServer noReplyServer 2 1 5).1.page_lens = [1, 1] ∧
    (topCids (fetch_comments dupServer noReplyServer 2 1 5).1).length = 1 ∧
    ∀ (server : Nat → String → HttpResponse)
      (rs : String → Nat → String → Option PageData) (M rf fuel : Nat),
      (fetch_comments server rs M rf fuel).1.total_received =
        (fetch_comments server rs M rf fuel).1.page_lens.sum := by
  refine ⟨by decide, by decide, by decide, by decide, by decide, ?_⟩
  intro server rs M rf fuel
  exact (masterRun server rs M rf fuel).2.1

/-- C10: a page item without a `cid` field is materialized with the literal
id `"None"` (`str(None)`), without error; the first such item yields one
record with id `"None"` and a second cid-less item in the same fetch is
dropped by the dedup set. -/
theorem missing_cid_yields_none :
    pyStr none = "None" ∧
    ((fetch_comments (pagedServer [[bareItem none none, bareItem none none,
        bareItem (some "x") none]]) noReplyServer 100000 1 3).1.all_comments.map
      (fun r => r.cid)) = ["None", "x"] ∧
    (fetch_comments (pagedServer [[bareItem none none, bareItem none none,
        bareItem (some "x") none]]) noReplyServer 100000 1 3).2 = true := by
  refine ⟨rfl, by decide, by decide⟩

end TiktokComments
